import Mathlib

/-
Verification of the psd2json layer-style derivation engine.

This file shallowly embeds the TypeScript sources of the psd2json
repository (src/converter.ts, src/styleConverter.ts, src/utils.ts,
src/errorHandler.ts plus the revised styleConverter found in the
unnamed source parts) into Lean 4 and proves or refutes the frozen
specification claims about them.

Modelling conventions:
- JavaScript numbers are modelled as rationals (`ℚ`); where a value can
  be `NaN`/`Infinity` (e.g. after a `Number(...)` coercion guarded by
  `isFinite`) the type `JsNum` with explicit non-finite constructors is
  used.  Binary floating-point rounding is not modelled.
- `Math.round` is `⌊x + 1/2⌋` (round half towards +∞), as in JS.
- The JS remainder operator `%` truncates towards zero (`jsRem`).
- Falsy-fallback expressions `x || y` on numbers are `jsOr` (fallback
  exactly when the number is 0; `NaN` cases are covered separately where
  a `JsNum` is in play).
- `undefined`/absent object fields are `Option`.
- Template-literal style values such as `` `${q}px` `` are modelled
  structurally by the tagged type `CssVal` instead of decimal printing,
  since faithful JS float-to-string printing is out of scope and no
  claim depends on it.
-/

namespace Psd2Json

/-- Model of a JavaScript number: a finite rational or one of the
non-finite values (`NaN`, `Infinity`, `-Infinity`). -/
inductive JsNum where
  | finite (q : ℚ)
  | nan
  | posInf
  | negInf
deriving DecidableEq, Repr

/-- JS `Math.round`: rounds half towards positive infinity. -/
def jsRound (q : ℚ) : ℤ := ⌊q + 1/2⌋

/-- Truncation towards zero, as used by the JS `%` operator. -/
def jsTrunc (q : ℚ) : ℤ := if 0 ≤ q then ⌊q⌋ else ⌈q⌉

/-- JS remainder operator `x % y` on finite numbers with `y ≠ 0`:
`x - y * trunc(x / y)`; the result carries the sign of `x`. -/
def jsRem (x y : ℚ) : ℚ := x - y * (jsTrunc (x / y) : ℚ)

/-- JS falsy fallback `x || y` for numbers: yields `y` exactly when
`x` is `0` (the non-finite `NaN` case is handled via `JsNum` where
relevant). -/
def jsOr (x y : ℚ) : ℚ := if x = 0 then y else x

/-- Clamp a rational into `[lo, hi]`, written as the JS idiom
`Math.max(lo, Math.min(hi, x))`. -/
def jsClamp (lo hi x : ℚ) : ℚ := max lo (min hi x)

/-- Embedding of `normalizeColorChannelTo255` (src/utils.ts):
normalizes a loosely-typed channel value to an integer, auto-detecting
fraction / 8-bit / 12-bit / 16-bit ranges.  Non-finite input maps
to 0. -/
def normalizeColorChannelTo255 (value : JsNum) : ℤ :=
  match value with
  | .nan | .posInf | .negInf => 0
  | .finite n =>
    if n ≤ 0 then 0
    else if n ≤ 1 then jsRound (n * 255)
    else if n ≤ 255 then jsRound n
    else if n ≤ 4095 then jsRound (n / 4095 * 255)
    else jsRound (n / 65535 * 255)

/-- Embedding of `normalizeAlphaToUnit` (src/utils.ts): alpha
auto-detect ladder; `none` models `undefined`/`null` input. -/
def normalizeAlphaToUnit (value : Option JsNum) : ℚ :=
  match value with
  | none => 1
  | some .nan | some .posInf | some .negInf => 0
  | some (.finite n) =>
    if n ≤ 0 then 0
    else if n ≤ 1 then n
    else if n ≤ 100 then n / 100
    else if n ≤ 255 then n / 255
    else if n ≤ 4095 then n / 4095
    else n / 65535

/-- Embedding of `normalizeStopLocationToPercent` (src/utils.ts):
gradient stop location to a percentage in a detected unit. -/
def normalizeStopLocationToPercent (location : JsNum) : ℚ :=
  match location with
  | .nan | .posInf | .negInf => 0
  | .finite n =>
    if n < 0 then 0
    else if n ≤ 1 then n * 100
    else if n ≤ 100 then n
    else if n ≤ 4096 then n / 4096 * 100
    else n / 65535 * 100

/-- Hexadecimal digits of a natural number (`n.toString(16)` for
`n ≥ 0`), lower case, without padding. -/
def natHexString (n : ℕ) : String := String.mk (Nat.toDigits 16 n)

/-- JS `n.toString(16)` for an integer. -/
def intHexString (i : ℤ) : String :=
  if i < 0 then "-" ++ natHexString (-i).toNat else natHexString i.toNat

/-- Embedding of `toHex2` (src/utils.ts and the revised styleConverter):
`Math.round(n).toString(16).padStart(2, "0")` applied to an integer
channel value. -/
def toHex2 (i : ℤ) : String :=
  let h := intHexString i
  if h.length < 2 then "0" ++ h else h

/-- Source-side color object as consumed by `normalizeColorObject`
(src/utils.ts): loosely-typed channels under either short or long key
names, each possibly absent. -/
structure ColorSrc where
  r : Option JsNum := none
  red : Option JsNum := none
  g : Option JsNum := none
  green : Option JsNum := none
  b : Option JsNum := none
  blue : Option JsNum := none
  a : Option JsNum := none
deriving DecidableEq, Repr

/-- Canonical color produced by `normalizeColorObject`: 0-255 integer
channels plus a 0-1 alpha. -/
structure RGBA255 where
  r : ℤ
  g : ℤ
  b : ℤ
  a : ℚ
deriving DecidableEq, Repr

/-- Embedding of `normalizeColorObject` (src/utils.ts): channel lookup
`src.r ?? src.red ?? 0`, normalization to 0-255, and clamping; `none`
for the whole argument models a falsy `color` (the `color || {}`
fallback). -/
def normalizeColorObject (color : Option ColorSrc) : RGBA255 :=
  let src := color.getD {}
  let r := normalizeColorChannelTo255 ((src.r.or src.red).getD (.finite 0))
  let g := normalizeColorChannelTo255 ((src.g.or src.green).getD (.finite 0))
  let b := normalizeColorChannelTo255 ((src.b.or src.blue).getD (.finite 0))
  let a := normalizeAlphaToUnit src.a
  { r := min 255 (max 0 r)
    g := min 255 (max 0 g)
    b := min 255 (max 0 b)
    a := min 1 (max 0 a) }

/-- Embedding of `convertColorToHex` from src/utils.ts (the revised
color path used by the unnamed styleConverter): hex rendering of a
normalized color object. -/
def convertColorObjectToHex (color : Option ColorSrc) : String :=
  let c := normalizeColorObject color
  "#" ++ toHex2 c.r ++ toHex2 c.g ++ toHex2 c.b

/-- Supported blend-mode allow-list of `convertBlendMode`
(src/utils.ts), as an association list from lower-case names to CSS
values. -/
def blendModeMap : List (String × String) :=
  [("normal", "normal"), ("multiply", "multiply"), ("screen", "screen"),
   ("overlay", "overlay"), ("soft-light", "soft-light"),
   ("hard-light", "hard-light"), ("color-dodge", "color-dodge"),
   ("color-burn", "color-burn"), ("darken", "darken"),
   ("lighten", "lighten"), ("difference", "difference"),
   ("exclusion", "exclusion"), ("hue", "hue"),
   ("saturation", "saturation"), ("color", "color"),
   ("luminosity", "luminosity")]

/-- ASCII lowercasing of one character, as JS `toLowerCase` acts on
the ASCII range (all supported blend-mode names are ASCII). -/
def jsCharToLower (c : Char) : Char :=
  if 'A' ≤ c ∧ c ≤ 'Z' then Char.ofNat (c.toNat + 32) else c

/-- Model of JS `String.prototype.toLowerCase`, character-wise over
the string's characters. -/
def jsToLowerCase (s : String) : String :=
  String.mk (s.data.map jsCharToLower)

/-- Embedding of `convertBlendMode` (src/utils.ts):
`blendMode ? blendModeMap[blendMode.toLowerCase()] : undefined`.
`none` models `undefined`; the empty string is falsy and also yields
`none`. -/
def convertBlendMode (blendMode : Option String) : Option String :=
  match blendMode with
  | none => none
  | some s =>
    if s = "" then none
    else (blendModeMap.lookup (jsToLowerCase s))

/-- Source-side color union of src/styleConverter.ts (the ag-psd
`Color` type): a bag of optional channel fields, one set per
colorspace variant.  The field `b` is shared between the RGB, HSB and
LAB variants, and `k` between Grayscale and CMYK, exactly as the
JavaScript `in`-based dispatch sees them. -/
structure ColorObj where
  r : Option ℚ := none
  g : Option ℚ := none
  b : Option ℚ := none
  a : Option ℚ := none
  fr : Option ℚ := none
  fg : Option ℚ := none
  fb : Option ℚ := none
  k : Option ℚ := none
  h : Option ℚ := none
  s : Option ℚ := none
  c : Option ℚ := none
  m : Option ℚ := none
  y : Option ℚ := none
  l : Option ℚ := none
deriving DecidableEq, Repr

/-- An RGB triple of 0-1 fractions. -/
structure RGBf where
  r : ℚ
  g : ℚ
  b : ℚ
deriving DecidableEq, Repr

/-- Embedding of `hsbToRgb` (src/styleConverter.ts). -/
def hsbToRgb (h s b : ℚ) : RGBf :=
  let c := b * s
  let x := c * (1 - |jsRem (h / 60) 2 - 1|)
  let m := b - c
  let (r, g, bl) :=
    if 0 ≤ h ∧ h < 60 then (c, x, (0 : ℚ))
    else if 60 ≤ h ∧ h < 120 then (x, c, 0)
    else if 120 ≤ h ∧ h < 180 then (0, c, x)
    else if 180 ≤ h ∧ h < 240 then (0, x, c)
    else if 240 ≤ h ∧ h < 300 then (x, 0, c)
    else (c, 0, x)
  { r := r + m, g := g + m, b := bl + m }

/-- Embedding of `cmykToRgb` (src/styleConverter.ts): the standard
CMYK to RGB formula on 0-1 fractions. -/
def cmykToRgb (c m y k : ℚ) : RGBf :=
  { r := 1 - min 1 (c * (1 - k) + k)
    g := 1 - min 1 (m * (1 - k) + k)
    b := 1 - min 1 (y * (1 - k) + k) }

/-- JS `a.toFixed(2)`: the closest 2-decimal representation, ties
resolved to the larger value (ideal decimal rounding; binary float
artifacts are not modelled). -/
def ratToFixed2 (a : ℚ) : String :=
  let m := ⌊a * 100 + 1/2⌋
  let n := m.natAbs
  let frac := n % 100
  (if m < 0 then "-" else "") ++ toString (n / 100) ++ "." ++
    (if frac < 10 then "0" else "") ++ toString frac

/-- Embedding of `rgbaToHex` (src/utils.ts): fraction channels to a
`#rrggbb` hex string, or an `rgba(R, G, B, A)` string when an alpha
below 1 is supplied. -/
def rgbaToHex (r g b : ℚ) (a : Option ℚ) : String :=
  let toHex := fun (n : ℚ) =>
    let hx := intHexString (jsRound (n * 255))
    if hx.length = 1 then "0" ++ hx else hx
  match a with
  | some av =>
    if av < 1 then
      "rgba(" ++ toString (jsRound (r * 255)) ++ ", " ++
        toString (jsRound (g * 255)) ++ ", " ++
        toString (jsRound (b * 255)) ++ ", " ++ ratToFixed2 av ++ ")"
    else "#" ++ toHex r ++ toHex g ++ toHex b
  | none => "#" ++ toHex r ++ toHex g ++ toHex b

/-- Shape of the LAB to RGB conversion.  `labToRgb` in the source
gamma-expands through `Math.pow(x, 1/2.4)`, which is transcendental
over ℚ, so the embedding abstracts the LAB branch behind this
parameter; every claim below concerns other branches, whose results
are independent of it. -/
def LabConv : Type := ℚ → ℚ → ℚ → RGBf

/-- Embedding of `convertColorToHex` (src/styleConverter.ts): the
colorspace dispatch by field presence, in source order - RGB(A),
float RGB, `k` (grayscale), HSB, CMYK, LAB.  Note the `k` test
precedes the CMYK test exactly as in the source. -/
def convertColorToHex (labToRgb : LabConv) (color : ColorObj) : Option String :=
  if color.r.isSome && color.g.isSome && color.b.isSome then
    some (rgbaToHex (color.r.getD 0 / 255) (color.g.getD 0 / 255)
      (color.b.getD 0 / 255) (color.a.map (· / 255)))
  else if color.fr.isSome && color.fg.isSome && color.fb.isSome then
    some (rgbaToHex (color.fr.getD 0) (color.fg.getD 0) (color.fb.getD 0) none)
  else if color.k.isSome then
    let v := 1 - color.k.getD 0 / 255
    some (rgbaToHex v v v none)
  else if color.h.isSome && color.s.isSome && color.b.isSome then
    let rgb := hsbToRgb (color.h.getD 0) (color.s.getD 0) (color.b.getD 0)
    some (rgbaToHex rgb.r rgb.g rgb.b none)
  else if color.c.isSome && color.m.isSome && color.y.isSome && color.k.isSome then
    let rgb := cmykToRgb (color.c.getD 0 / 255) (color.m.getD 0 / 255)
      (color.y.getD 0 / 255) (color.k.getD 0 / 255)
    some (rgbaToHex rgb.r rgb.g rgb.b none)
  else if color.l.isSome && color.a.isSome && color.b.isSome then
    let rgb := labToRgb (color.l.getD 0) (color.a.getD 0) (color.b.getD 0)
    some (rgbaToHex rgb.r rgb.g rgb.b none)
  else none

/-- Character-style record of a text payload (the fields of
`layer.text.style` read by the converters). -/
structure TextStyleData where
  font : Option String := none
  fontSize : Option ℚ := none
  fontWeight : Option ℚ := none
  fauxBold : Bool := false
  fauxItalic : Bool := false
  fillColor : Option ColorObj := none
  tracking : Option ℚ := none
  leading : Option ℚ := none
  strikethrough : Bool := false
  underline : Bool := false
  horizontalScale : Option ℚ := none
  baselineShift : Option ℚ := none
deriving DecidableEq, Repr

/-- Paragraph-style record of a text payload. -/
structure ParagraphStyleData where
  justification : Option String := none
  firstLineIndent : Option ℚ := none
  startIndent : Option ℚ := none
  endIndent : Option ℚ := none
  spaceBefore : Option ℚ := none
  spaceAfter : Option ℚ := none
deriving DecidableEq, Repr

/-- Text payload of a layer (`layer.text`).  `boundingBox` holds the
four `UnitsValue.value` numbers; `boxBounds` is the raw four-number
array; `transform` is the 6-coefficient affine matrix. -/
structure TextData where
  text : String := ""
  boundingBox : Option (ℚ × ℚ × ℚ × ℚ) := none
  boxBounds : Option (ℚ × ℚ × ℚ × ℚ) := none
  transform : Option (ℚ × ℚ × ℚ × ℚ × ℚ × ℚ) := none
  style : Option TextStyleData := none
  paragraphStyle : Option ParagraphStyleData := none
deriving DecidableEq, Repr

/-- Flat per-layer data (one node of the decoder's tree, children
aside).  The raster payload is abstracted to presence flags, which is
all `isImageLayer` inspects.  The effect set is not modelled: the
effect renderer's output (trigonometric shadow offsets rendered into
CSS strings) is referenced by no claim, and per-layer conversion
failure is modelled by the conversion oracle of `processLayers`. -/
structure LayerData where
  name : Option String := none
  hidden : Bool := false
  left : Option ℚ := none
  top : Option ℚ := none
  right : Option ℚ := none
  bottom : Option ℚ := none
  opacity : Option ℚ := none
  blendMode : Option String := none
  text : Option TextData := none
  hasCanvas : Bool := false
  hasImageData : Bool := false
  canvasDataUrl : Option String := none
deriving DecidableEq, Repr

/-- One node of the decoder's layer tree: flat data plus exclusively
owned children. -/
inductive LayerTree where
  | node (data : LayerData) (children : List LayerTree)

/-- Embedding of `isTextLayer` (src/utils.ts):
`!!(layer.text && layer.text.text)` - a non-empty text payload. -/
def isTextLayer (layer : LayerData) : Bool :=
  match layer.text with
  | some t => t.text ≠ ""
  | none => false

/-- Embedding of `isImageLayer` (src/utils.ts):
`!!(layer.canvas || layer.imageData) && !isTextLayer(layer)`. -/
def isImageLayer (layer : LayerData) : Bool :=
  (layer.hasCanvas || layer.hasImageData) && !(isTextLayer layer)

/-- Embedding of `shouldIncludeLayer` (src/utils.ts). -/
def shouldIncludeLayer (layer : LayerData) (includeHidden : Bool) : Bool :=
  if !includeHidden && layer.hidden then false else true

/-- Embedding of `layer.name || "Unnamed"` as used throughout
converter.ts (the empty string is falsy). -/
def layerDisplayName (layer : LayerData) : String :=
  match layer.name with
  | some s => if s = "" then "Unnamed" else s
  | none => "Unnamed"

mutual

/-- Embedding of `flattenLayers` (src/converter.ts) on a single node:
the node itself, followed by its recursively flattened children. -/
def flattenTree : LayerTree → List LayerData
  | .node d cs => d :: flattenForest cs

/-- Embedding of `flattenLayers` (src/converter.ts): depth-first,
parent before children, preserving sibling order. -/
def flattenForest : List LayerTree → List LayerData
  | [] => []
  | t :: ts => flattenTree t ++ flattenForest ts

end

/-- Rectangle of stored layer bounds (left/top/right/bottom). -/
structure LayerBounds where
  left : ℚ
  top : ℚ
  right : ℚ
  bottom : ℚ
deriving DecidableEq, Repr

/-- Bounding box with derived width and height, the return shape of
`getTextLayerBoundingBox` (src/utils.ts). -/
structure TextBBox where
  left : ℚ
  top : ℚ
  right : ℚ
  bottom : ℚ
  width : ℚ
  height : ℚ
deriving DecidableEq, Repr

/-- Embedding of the `defaultBounds` object of `getTextLayerBoundingBox`
(src/utils.ts): `layer.left ?? 0` and friends. -/
def defaultBounds (layer : LayerData) : LayerBounds :=
  { left := layer.left.getD 0
    top := layer.top.getD 0
    right := layer.right.getD 0
    bottom := layer.bottom.getD 0 }

/-- Embedding of the `boundingBox` array of `getTextLayerBoundingBox`:
each coordinate is `layer.text?.boundingBox?.<side>.value` with the
default bound as `??`-fallback (when the chain is absent, every
coordinate falls back). -/
def boundingBoxArr (layer : LayerData) : ℚ × ℚ × ℚ × ℚ :=
  let d := defaultBounds layer
  match layer.text.bind (·.boundingBox) with
  | some bb => bb
  | none => (d.left, d.top, d.right, d.bottom)

/-- Nominal text box selected by `getTextLayerBoundingBox`:
`layer.text?.boxBounds || boundingBox`. -/
def nominalBox (layer : LayerData) : ℚ × ℚ × ℚ × ℚ :=
  match layer.text.bind (·.boxBounds) with
  | some bb => bb
  | none => boundingBoxArr layer

/-- Embedding of `getTextLayerBoundingBox` (src/utils.ts): resolves a
text layer's visual box.  Without a transform (absent, or all six
coefficients falsy) each nominal coordinate goes through the
falsy-fallback `coord || defaultBounds.coord`; with a transform the
four corners are mapped through the affine matrix and the axis-aligned
envelope of the images is returned. -/
def getTextLayerBoundingBox (layer : LayerData) : TextBBox :=
  let d := defaultBounds layer
  let (l, t, r, bo) := nominalBox layer
  let tr := (layer.text.bind (·.transform)).getD (0, 0, 0, 0, 0, 0)
  match tr with
  | (a, b, c, dd, e, f) =>
    if a = 0 ∧ b = 0 ∧ c = 0 ∧ dd = 0 ∧ e = 0 ∧ f = 0 then
      let fl := jsOr l d.left
      let ft := jsOr t d.top
      let fr := jsOr r d.right
      let fb := jsOr bo d.bottom
      { left := fl, top := ft, right := fr, bottom := fb
        width := fr - fl, height := fb - ft }
    else
      let x1 := a * l + c * t + e
      let y1 := b * l + dd * t + f
      let x2 := a * r + c * t + e
      let y2 := b * r + dd * t + f
      let x3 := a * r + c * bo + e
      let y3 := b * r + dd * bo + f
      let x4 := a * l + c * bo + e
      let y4 := b * l + dd * bo + f
      let minX := min (min (min x1 x2) x3) x4
      let maxX := max (max (max x1 x2) x3) x4
      let minY := min (min (min y1 y2) y3) y4
      let maxY := max (max (max y1 y2) y3) y4
      { left := minX, top := minY, right := maxX, bottom := maxY
        width := maxX - minX, height := maxY - minY }

/-- Embedding of `getLayerBounds` (src/styleConverter.ts):
`layer.left || 0` and friends; for numbers the falsy fallback on an
absent/zero coordinate coincides with `Option.getD 0`. -/
def getLayerBounds (layer : LayerData) : LayerBounds :=
  { left := layer.left.getD 0
    top := layer.top.getD 0
    right := layer.right.getD 0
    bottom := layer.bottom.getD 0 }

/-- Embedding of `normalizeLayerBounds` (src/utils.ts): rounds every
stored coordinate to the nearest integer. -/
def normalizeLayerBounds (bounds : LayerBounds) : LayerBounds :=
  { left := (jsRound bounds.left : ℚ)
    top := (jsRound bounds.top : ℚ)
    right := (jsRound bounds.right : ℚ)
    bottom := (jsRound bounds.bottom : ℚ) }

/-- Embedding of `calculateLayerDimensions` (src/utils.ts). -/
def calculateLayerDimensions (bounds : LayerBounds) : ℚ × ℚ :=
  (bounds.right - bounds.left, bounds.bottom - bounds.top)

/-- Structural model of a CSS property value: plain numbers stay
numbers; template-literal strings that interpolate a number (such as
`` `${q}px` `` or `` `${p.toFixed(2)}%` ``) are kept as tagged values
rather than printed to decimal text. -/
inductive CssVal where
  | num (q : ℚ)
  | pct (q : ℚ)
  | px (q : ℚ)
  | str (s : String)
  | scaleX (q : ℚ)
deriving DecidableEq, Repr

/-- Output style record (the CSSProperties subset the converters
write, plus the literal `value` content). -/
structure StyleRecord where
  position : String := "absolute"
  left : CssVal
  top : CssVal
  width : CssVal
  height : CssVal
  opacity : Option ℚ := none
  mixBlendMode : Option String := none
  fontFamily : Option String := none
  fontSize : Option CssVal := none
  fontWeight : Option CssVal := none
  fontStyle : Option String := none
  color : Option String := none
  letterSpacing : Option CssVal := none
  lineHeight : Option CssVal := none
  textDecoration : Option String := none
  transform : Option CssVal := none
  verticalAlign : Option CssVal := none
  textAlign : Option String := none
  textIndent : Option CssVal := none
  marginLeft : Option CssVal := none
  marginRight : Option CssVal := none
  marginTop : Option CssVal := none
  marginBottom : Option CssVal := none
  value : Option String := none
deriving DecidableEq, Repr

/-- Conversion options (src/types.ts `ConversionOptions`); `units` is
still read by `convertPxToPercent` though no longer validated. -/
structure ConversionOptionsModel where
  logging : Bool := false
  includeHidden : Bool := false
  units : Option String := none
deriving DecidableEq, Repr

/-- Document pixel dimensions. -/
structure PsdDimensionsModel where
  width : ℚ
  height : ℚ
deriving DecidableEq, Repr

/-- Conversion context threaded through the converters. -/
structure ConversionContextModel where
  psdDimensions : PsdDimensionsModel
  options : ConversionOptionsModel
deriving DecidableEq, Repr

/-- Embedding of `convertPxToPercent` (src/utils.ts): percent-string
when the `units` option is `"percent"`, the raw number otherwise. -/
def convertPxToPercent (value reference : ℚ) (ctx : ConversionContextModel) : CssVal :=
  if ctx.options.units = some "percent" then .pct (value / reference * 100)
  else .num value

/-- Embedding of `convertDimensionValue` (src/utils.ts). -/
def convertDimensionValue (value : ℚ) (isWidth : Bool) (ctx : ConversionContextModel) : CssVal :=
  convertPxToPercent value
    (if isWidth then ctx.psdDimensions.width else ctx.psdDimensions.height) ctx

/-- Justification-to-text-align table of `convertTextStyles`
(src/styleConverter.ts). -/
def justificationMap : List (String × String) :=
  [("left", "left"), ("right", "right"), ("center", "center"),
   ("justify-left", "justify"), ("justify-right", "justify"),
   ("justify-center", "justify"), ("justify-all", "justify")]

/-- The fresh `styles` object `convertTextStyles` builds before the
caller `Object.assign`s it onto the base record: a key is present
exactly when the corresponding field is `some`. -/
structure TextStyleFragment where
  fontFamily : Option String := none
  fontSize : Option CssVal := none
  fontWeight : Option CssVal := none
  fontStyle : Option String := none
  color : Option String := none
  letterSpacing : Option CssVal := none
  lineHeight : Option CssVal := none
  textDecoration : Option String := none
  transform : Option CssVal := none
  verticalAlign : Option CssVal := none
  textAlign : Option String := none
  textIndent : Option CssVal := none
  marginLeft : Option CssVal := none
  marginRight : Option CssVal := none
  marginTop : Option CssVal := none
  marginBottom : Option CssVal := none
deriving DecidableEq, Repr

/-- Embedding of `convertTextStyles` (src/styleConverter.ts): builds
the fresh font/paragraph style object, field by field in source
order. -/
def convertTextStyles (labToRgb : LabConv) (textData : TextData)
    (ctx : ConversionContextModel) : TextStyleFragment :=
  let styles : TextStyleFragment := {}
  let styles :=
    match textData.style with
    | none => styles
    | some ts =>
      let styles := match ts.font with
        | some n => { styles with fontFamily := some n }
        | none => styles
      let styles := match ts.fontSize with
        | some fs => { styles with fontSize := some (convertDimensionValue fs false ctx) }
        | none => styles
      let styles := match ts.fontWeight with
        | some w => { styles with fontWeight := some (.num w) }
        | none => styles
      let styles := if ts.fauxBold then { styles with fontWeight := some (.str "bold") } else styles
      let styles := if ts.fauxItalic then { styles with fontStyle := some "italic" } else styles
      let styles := match ts.fillColor with
        | some fc =>
          match convertColorToHex labToRgb fc with
          | some cv => if cv = "" then styles else { styles with color := some cv }
          | none => styles
        | none => styles
      let styles := match ts.tracking with
        | some tr => { styles with letterSpacing := some (.px tr) }
        | none => styles
      let styles := match ts.leading with
        | some ld => { styles with lineHeight := some (convertDimensionValue ld false ctx) }
        | none => styles
      let styles := if ts.strikethrough then
          { styles with textDecoration := some ((styles.textDecoration.getD "") ++ " line-through") }
        else styles
      let styles := if ts.underline then
          { styles with textDecoration := some ((styles.textDecoration.getD "") ++ " underline") }
        else styles
      let styles := match ts.horizontalScale with
        | some hs => if hs ≠ 100 then { styles with transform := some (.scaleX (hs / 100)) } else styles
        | none => styles
      let styles := match ts.baselineShift with
        | some bs => { styles with verticalAlign := some (.px bs) }
        | none => styles
      styles
  match textData.paragraphStyle with
  | none => styles
  | some ps =>
    let styles := match ps.justification with
      | some j => { styles with textAlign := some ((justificationMap.lookup j).getD "left") }
      | none => styles
    let styles := match ps.firstLineIndent with
      | some v => { styles with textIndent := some (.px v) }
      | none => styles
    let styles := match ps.startIndent with
      | some v => { styles with marginLeft := some (.px v) }
      | none => styles
    let styles := match ps.endIndent with
      | some v => { styles with marginRight := some (.px v) }
      | none => styles
    let styles := match ps.spaceBefore with
      | some v => { styles with marginTop := some (.px v) }
      | none => styles
    match ps.spaceAfter with
    | some v => { styles with marginBottom := some (.px v) }
    | none => styles

/-- The `Object.assign(styles, textStyles)` step of `convertTextLayer`:
keys present on the fragment overwrite the base record; all other base
fields (position, geometry, opacity, blend mode) are untouched. -/
def assignTextStyles (styles : StyleRecord) (f : TextStyleFragment) : StyleRecord :=
  { styles with
    fontFamily := f.fontFamily.or styles.fontFamily
    fontSize := f.fontSize.or styles.fontSize
    fontWeight := f.fontWeight.or styles.fontWeight
    fontStyle := f.fontStyle.or styles.fontStyle
    color := f.color.or styles.color
    letterSpacing := f.letterSpacing.or styles.letterSpacing
    lineHeight := f.lineHeight.or styles.lineHeight
    textDecoration := f.textDecoration.or styles.textDecoration
    transform := f.transform.or styles.transform
    verticalAlign := f.verticalAlign.or styles.verticalAlign
    textAlign := f.textAlign.or styles.textAlign
    textIndent := f.textIndent.or styles.textIndent
    marginLeft := f.marginLeft.or styles.marginLeft
    marginRight := f.marginRight.or styles.marginRight
    marginTop := f.marginTop.or styles.marginTop
    marginBottom := f.marginBottom.or styles.marginBottom }

/-- Base style fragment shared by both converters
(src/styleConverter.ts): absolute position plus rounded geometry, then
conditional opacity and blend mode. -/
def baseStyles (layer : LayerData) (ctx : ConversionContextModel) : StyleRecord :=
  let bounds := getLayerBounds layer
  let nb := normalizeLayerBounds bounds
  let dims := calculateLayerDimensions nb
  let styles : StyleRecord :=
    { left := convertDimensionValue nb.left true ctx
      top := convertDimensionValue nb.top false ctx
      width := convertDimensionValue dims.1 true ctx
      height := convertDimensionValue dims.2 false ctx }
  let styles := match layer.opacity with
    | some o => if o < 1 then { styles with opacity := some o } else styles
    | none => styles
  match layer.blendMode with
  | some bm =>
    if bm = "" then styles
    else
      match convertBlendMode (some bm) with
      | some cbm => { styles with mixBlendMode := some cbm }
      | none => styles
  | none => styles

/-- Embedding of `getImageDataUrl` (src/styleConverter.ts): the
canvas-to-data-URI capability is external; the URI a successful
`toDataURL` call would produce is carried on the layer, `none` when
the capability is unavailable or throws. -/
def getImageDataUrl (layer : LayerData) : Option String :=
  if layer.hasCanvas then layer.canvasDataUrl else none

/-- Embedding of `convertTextLayer` (src/styleConverter.ts): base
geometry styles, text styles, and the literal text as `value`.  The
`applyEffectsToStyles` step is omitted: its shadow/border/background
fragments are referenced by no claim and touch none of the fields the
claims read. -/
def convertTextLayer (labToRgb : LabConv) (layer : LayerData)
    (ctx : ConversionContextModel) : StyleRecord :=
  let styles := baseStyles layer ctx
  let styles := match layer.text with
    | some td => assignTextStyles styles (convertTextStyles labToRgb td ctx)
    | none => styles
  { styles with value := some (((layer.text.map (·.text)).getD "")) }

/-- Embedding of `convertImageLayer` (src/styleConverter.ts), effects
omitted as for `convertTextLayer`. -/
def convertImageLayer (layer : LayerData) (ctx : ConversionContextModel) : StyleRecord :=
  let styles := baseStyles layer ctx
  { styles with value := getImageDataUrl layer }

/-- Error codes of src/errorHandler.ts. -/
inductive ErrorCode where
  | INVALID_BUFFER
  | INVALID_PSD_FORMAT
  | PARSING_FAILED
  | LAYER_CONVERSION_FAILED
  | INVALID_DIMENSIONS
  | UNSUPPORTED_FEATURE
  | MEMORY_ERROR
deriving DecidableEq, Repr

/-- Structured conversion error (`PsdConversionError`). -/
structure PsdConversionError where
  message : String
  code : ErrorCode
deriving DecidableEq, Repr

/-- Loosely-typed JavaScript value as seen by the `typeof` checks of
`validateConversionOptions`. -/
inductive JsVal where
  | bool (b : Bool)
  | num (q : ℚ)
  | str (s : String)
  | objOther
deriving DecidableEq, Repr

/-- Whether `typeof v === "boolean"`. -/
def JsVal.isBoolean : JsVal → Bool
  | .bool _ => true
  | _ => false

/-- Options argument as a raw JavaScript object: the two recognized
keys (absent/`undefined` is `none`), plus the names of any other keys
present on the object.  `isObject` is false when the caller passed a
non-object, which the validator lets through. -/
structure OptionsObject where
  isObject : Bool := true
  logging : Option JsVal := none
  includeHidden : Option JsVal := none
  extraKeys : List String := []
deriving DecidableEq, Repr

/-- Embedding of `validateConversionOptions` (src/errorHandler.ts):
type-checks only the `logging` and `includeHidden` values; nothing
else on the object is examined (the units check was removed). -/
def validateConversionOptions (options : OptionsObject) : Except PsdConversionError Unit :=
  if options.isObject = false then .ok ()
  else if options.logging.any (fun v => !v.isBoolean) then
    .error { message := "logging option must be a boolean", code := .INVALID_BUFFER }
  else if options.includeHidden.any (fun v => !v.isBoolean) then
    .error { message := "includeHidden option must be a boolean", code := .INVALID_BUFFER }
  else .ok ()

/-- Embedding of `safeLayerConversion` (src/errorHandler.ts): a
conversion body that may raise (modelled as `Except`) is run under a
try/catch; a failure yields `null` plus one `console.warn` entry
carrying the layer's name and the error. -/
def safeLayerConversion (layerName : String) (conversionFn : Except String StyleRecord) :
    Option StyleRecord × List (String × String) :=
  match conversionFn with
  | .ok a => (some a, [])
  | .error e => (none, [(layerName, e)])

/-- Result of the per-layer loop: the two record collections plus the
warnings emitted by `safeLayerConversion`. -/
structure ConversionResultModel where
  texts : List StyleRecord
  images : List StyleRecord
  warnings : List (String × String)
deriving DecidableEq, Repr

/-- Embedding of the per-layer loop of `processPsdLayers`
(src/converter.ts), parameterized by the two per-layer conversion
bodies so that a conversion that throws is representable: visibility
filter, classification, `safeLayerConversion`, and accumulation in
traversal order.  The function is total: no exception escapes the
loop. -/
def processLayers (includeHidden : Bool)
    (convT convI : LayerData → Except String StyleRecord) :
    List LayerData → ConversionResultModel
  | [] => { texts := [], images := [], warnings := [] }
  | layer :: rest =>
    let r := processLayers includeHidden convT convI rest
    if shouldIncludeLayer layer includeHidden then
      if isTextLayer layer then
        match safeLayerConversion (layerDisplayName layer) (convT layer) with
        | (some t, w) => { r with texts := t :: r.texts, warnings := w ++ r.warnings }
        | (none, w) => { r with warnings := w ++ r.warnings }
      else if isImageLayer layer then
        match safeLayerConversion (layerDisplayName layer) (convI layer) with
        | (some im, w) => { r with images := im :: r.images, warnings := w ++ r.warnings }
        | (none, w) => { r with warnings := w ++ r.warnings }
      else r
    else r

/-- Embedding of `processPsdLayers` applied to a document's child
trees with the actual converters (which, once embedded, are total, so
each body is `Except.ok`). -/
def processPsdReal (labToRgb : LabConv) (includeHidden : Bool)
    (ctx : ConversionContextModel) (children : List LayerTree) : ConversionResultModel :=
  processLayers includeHidden
    (fun l => .ok (convertTextLayer labToRgb l ctx))
    (fun l => .ok (convertImageLayer l ctx))
    (flattenForest children)

/-- One raw gradient color stop (`colorStops` entry of an
`EffectSolidGradient`): a loosely-typed color and a location of
unspecified unit. -/
structure GradStop where
  color : Option ColorSrc := none
  location : JsNum
deriving DecidableEq, Repr

/-- One mapped gradient stop of `convertGradientToCss` (unnamed
styleConverter): hex color, normalized percent position, and the
original index. -/
structure MappedStop where
  hexColor : String
  pos : ℚ
  index : ℕ
deriving DecidableEq, Repr

/-- Mapping of one raw stop at index `i`: black fallback color,
normalization to hex and to a percent position. -/
def mkMappedStop (i : ℕ) (stop : GradStop) : MappedStop :=
  let obj : ColorSrc := stop.color.getD
    { r := some (.finite 0), g := some (.finite 0), b := some (.finite 0) }
  let c := normalizeColorObject (some obj)
  { hexColor := "#" ++ toHex2 c.r ++ toHex2 c.g ++ toHex2 c.b
    pos := normalizeStopLocationToPercent stop.location
    index := i }

/-- Index-carrying map over the raw stops (the `map((stop, index))` of
the source). -/
def mappedStopsFrom (i : ℕ) : List GradStop → List MappedStop
  | [] => []
  | s :: rest => mkMappedStop i s :: mappedStopsFrom (i + 1) rest

/-- The mapped stops of a raw stop list. -/
def mappedStops (stops : List GradStop) : List MappedStop :=
  mappedStopsFrom 0 stops

/-- Minimum of a position list (`Math.min(...positions)`); only ever
applied to a non-empty list in the pipeline. -/
def listMinPos : List ℚ → ℚ
  | [] => 0
  | p :: ps => ps.foldl min p

/-- Maximum of a position list (`Math.max(...positions)`). -/
def listMaxPos : List ℚ → ℚ
  | [] => 0
  | p :: ps => ps.foldl max p

/-- Even redistribution position for stop `i` of `n`:
`n > 1 ? (i / (n - 1)) * 100 : 0`. -/
def evenPos (n i : ℕ) : ℚ :=
  if 1 < n then (i : ℚ) / ((n : ℚ) - 1) * 100 else 0

/-- Position redistribution and clamping pass of `convertGradientToCss`:
with `allEq` set the stored position is replaced by the even
redistribution value, and every position is then clamped to
`[0, 100]`. -/
def distributeFrom (allEq : Bool) (n : ℕ) (i : ℕ) : List MappedStop → List MappedStop
  | [] => []
  | s :: rest =>
    let pos := if allEq then evenPos n i else s.pos
    { s with pos := jsClamp 0 100 pos } :: distributeFrom allEq n (i + 1) rest

/-- The distributed (degenerate-corrected, clamped) stops of a raw
stop list.  `normalizeStopLocationToPercent` is total into ℚ, so the
source's `allInvalid` flag (all positions `NaN`) is identically false
and the degenerate trigger reduces to `minPos === maxPos`. -/
def distributedStops (stops : List GradStop) : List MappedStop :=
  let ms := mappedStops stops
  let ps := ms.map (·.pos)
  distributeFrom (decide (listMinPos ps = listMaxPos ps)) ms.length 0 ms

/-- Order the JS comparator `a.pos - b.pos || a.index - b.index`
induces: by position, with the original index as tie-break. -/
def stopLE (a b : MappedStop) : Prop :=
  a.pos < b.pos ∨ (a.pos = b.pos ∧ a.index ≤ b.index)

instance : DecidableRel stopLE := by
  intro a b
  unfold stopLE
  infer_instance

instance : IsTotal MappedStop stopLE := by
  constructor
  intro a b
  rcases lt_trichotomy a.pos b.pos with h | h | h
  · exact Or.inl (Or.inl h)
  · rcases le_total a.index b.index with hi | hi
    · exact Or.inl (Or.inr ⟨h, hi⟩)
    · exact Or.inr (Or.inr ⟨h.symm, hi⟩)
  · exact Or.inr (Or.inl h)

instance : IsTrans MappedStop stopLE := by
  constructor
  intro a b c hab hbc
  rcases hab with h1 | ⟨h1, i1⟩
  · rcases hbc with h2 | ⟨h2, _⟩
    · exact Or.inl (h1.trans h2)
    · exact Or.inl (h2 ▸ h1)
  · rcases hbc with h2 | ⟨h2, i2⟩
    · exact Or.inl (h1 ▸ h2)
    · exact Or.inr ⟨h1.trans h2, i1.trans i2⟩

/-- Sorting pass of `convertGradientToCss`: JS `Array.prototype.sort`
with the comparator above.  The comparator is a total preorder and the
indices are pairwise distinct, so the sorted result is unique and a
stable insertion sort computes it. -/
def sortStops (l : List MappedStop) : List MappedStop :=
  l.insertionSort stopLE

/-- Full stop pipeline of `convertGradientToCss`: map, degenerate
redistribution, clamp, sort. -/
def finalGradientStops (stops : List GradStop) : List MappedStop :=
  sortStops (distributedStops stops)

/-- Gradient style tag (`GradientStyle` of ag-psd). -/
inductive GradientStyleTag where
  | linear
  | radial
  | angle
  | reflected
  | diamond
deriving DecidableEq, Repr

/-- Solid gradient payload. -/
structure SolidGradientData where
  colorStops : List GradStop
deriving DecidableEq, Repr

/-- Gradient payload: solid stops, or a noise gradient with no CSS
equivalent. -/
inductive GradientData where
  | solid (g : SolidGradientData)
  | noise
deriving DecidableEq, Repr

/-- CSS angle computation of `convertGradientToCss`:
`(90 - gradientAngle) % 360` with the JS truncating remainder. -/
def cssAngleOf (documentAngle : ℚ) : ℚ :=
  jsRem (90 - documentAngle) 360

/-- Structural form of the CSS gradient string
`convertGradientToCss` produces: the function name and angle are kept
symbolically and the stop fragments as (hex, percent-position) pairs,
`formatPercent` decimal printing aside. -/
inductive GradCss where
  | noiseFallback
  | transparent
  | radialCircle (stops : List MappedStop)
  | conic (fromAngle : ℚ) (stops : List MappedStop)
  | repeatingLinear (angleDeg : ℚ) (stops : List MappedStop)
  | radialEllipse (stops : List MappedStop)
  | linear (angleDeg : ℚ) (stops : List MappedStop)
deriving DecidableEq, Repr

/-- Embedding of `convertGradientToCss` (unnamed styleConverter):
noise placeholder, empty-stop guard, stop pipeline, angle conversion
and style dispatch.  The joined stop string is non-empty exactly when
the stop list is, so the second `transparent` guard collapses into the
first. -/
def convertGradientToCss (gradient : GradientData) (type : Option GradientStyleTag)
    (angle : Option ℚ) : GradCss :=
  match gradient with
  | .noise => .noiseFallback
  | .solid sg =>
    if sg.colorStops.isEmpty then .transparent
    else
      let stops := finalGradientStops sg.colorStops
      let gradientAngle := angle.getD 0
      match type with
      | some .radial => .radialCircle stops
      | some .angle => .conic gradientAngle stops
      | some .reflected => .repeatingLinear (cssAngleOf gradientAngle) stops
      | some .diamond => .radialEllipse stops
      | some .linear => .linear (cssAngleOf gradientAngle) stops
      | none => .linear (cssAngleOf gradientAngle) stops

/-! Helper lemmas about the JS arithmetic primitives. -/

theorem jsRound_mono {x y : ℚ} (h : x ≤ y) : jsRound x ≤ jsRound y :=
  Int.floor_le_floor (by linarith)

theorem jsRound_nonneg {x : ℚ} (h : 0 ≤ x) : 0 ≤ jsRound x :=
  Int.le_floor.mpr (by push_cast; linarith)

theorem jsRound_intCast (n : ℤ) : jsRound ((n : ℚ)) = n := by
  unfold jsRound
  rw [add_comm, Int.floor_add_int]
  norm_num

theorem jsRound_le_of_le {x : ℚ} {n : ℤ} (h : x ≤ (n : ℚ)) : jsRound x ≤ n := by
  have h2 : jsRound x ≤ jsRound ((n : ℚ)) := jsRound_mono h
  rw [jsRound_intCast] at h2
  exact h2

theorem jsRem_props (x : ℚ) {y : ℚ} (hy : 0 < y) :
    jsRem x y < y ∧ (-y) < jsRem x y ∧ (0 ≤ x → 0 ≤ jsRem x y) ∧
      ∃ k : ℤ, x - jsRem x y = y * k := by
  have hyne : y ≠ 0 := hy.ne.symm
  have hxu : x / y * y = x := div_mul_cancel₀ x hyne
  unfold jsRem jsTrunc
  by_cases hx : 0 ≤ x / y
  · simp only [hx, if_pos]
    have h1 : ((⌊x / y⌋ : ℚ)) ≤ x / y := Int.floor_le _
    have h2 : x / y < (⌊x / y⌋ : ℚ) + 1 := Int.lt_floor_add_one _
    refine ⟨?_, ?_, ?_, ⟨⌊x / y⌋, by ring⟩⟩
    · nlinarith
    · nlinarith
    · intro _
      nlinarith
  · simp only [hx, if_neg, if_false]
    have h1 : x / y ≤ ((⌈x / y⌉ : ℚ)) := Int.le_ceil _
    have h2 : ((⌈x / y⌉ : ℚ)) < x / y + 1 := Int.ceil_lt_add_one _
    refine ⟨?_, ?_, ?_, ⟨⌈x / y⌉, by ring⟩⟩
    · nlinarith
    · nlinarith
    · intro hx0
      exact absurd (div_nonneg hx0 hy.le) hx

/-- C6 (amended): for every numeric channel value the normalizer maps
non-finite input to 0, values `≤ 0` to 0, and otherwise applies the
fraction / 8-bit / 12-bit / 16-bit ladder exactly as claimed; the
result is an integer that lies in `[0, 255]` whenever the input is at
most 65535 — the unconditional `[0, 255]` bound of the original claim
fails for some larger inputs (131070 yields 510, see the
counterexample). -/
theorem normalizeColorChannelTo255_spec (q : ℚ) :
    (normalizeColorChannelTo255 .nan = 0 ∧ normalizeColorChannelTo255 .posInf = 0 ∧
      normalizeColorChannelTo255 .negInf = 0) ∧
    (q ≤ 0 → normalizeColorChannelTo255 (.finite q) = 0) ∧
    (0 < q → q ≤ 1 → normalizeColorChannelTo255 (.finite q) = jsRound (q * 255)) ∧
    (1 < q → q ≤ 255 → normalizeColorChannelTo255 (.finite q) = jsRound q) ∧
    (255 < q → q ≤ 4095 → normalizeColorChannelTo255 (.finite q) = jsRound (q / 4095 * 255)) ∧
    (4095 < q → normalizeColorChannelTo255 (.finite q) = jsRound (q / 65535 * 255)) ∧
    (q ≤ 65535 → 0 ≤ normalizeColorChannelTo255 (.finite q) ∧
      normalizeColorChannelTo255 (.finite q) ≤ 255) := by
  refine ⟨⟨rfl, rfl, rfl⟩, ?_, ?_, ?_, ?_, ?_, ?_⟩
  · intro h
    simp only [normalizeColorChannelTo255, if_pos h]
  · intro h0 h1
    simp only [normalizeColorChannelTo255]
    rw [if_neg (by linarith), if_pos h1]
  · intro h1 h2
    simp only [normalizeColorChannelTo255]
    rw [if_neg (by linarith), if_neg (by linarith), if_pos h2]
  · intro h2 h3
    simp only [normalizeColorChannelTo255]
    rw [if_neg (by linarith), if_neg (by linarith), if_neg (by linarith), if_pos h3]
  · intro h4
    simp only [normalizeColorChannelTo255]
    rw [if_neg (by linarith), if_neg (by linarith), if_neg (by linarith),
      if_neg (by linarith)]
  · intro hq
    simp only [normalizeColorChannelTo255]
    split_ifs with h1 h2 h3 h4
    · exact ⟨le_refl 0, by norm_num⟩
    · exact ⟨jsRound_nonneg (by nlinarith), jsRound_le_of_le (by push_cast; nlinarith)⟩
    · exact ⟨jsRound_nonneg (by linarith), jsRound_le_of_le (by push_cast; linarith)⟩
    · exact ⟨jsRound_nonneg (by nlinarith), jsRound_le_of_le (by push_cast; nlinarith)⟩
    · exact ⟨jsRound_nonneg (by nlinarith), jsRound_le_of_le (by push_cast; nlinarith)⟩

/-- C6 counterexample: at input 131070 the 16-bit rescale yields 510,
violating the claimed unconditional `[0, 255]` bound. -/
theorem normalizeColorChannelTo255_over16bit_cex :
    normalizeColorChannelTo255 (.finite 131070) = 510 ∧
      ¬ normalizeColorChannelTo255 (.finite 131070) ≤ 255 := by
  have h : normalizeColorChannelTo255 (.finite 131070) = 510 := by
    norm_num [normalizeColorChannelTo255, jsRound]
  rw [h]
  exact ⟨rfl, by decide⟩

/-- C6 witness: the branch formula and the conditional bounds at the
concrete input 1000, with every antecedent discharged. -/
theorem normalizeColorChannelTo255_spec_witness :
    ((255 : ℚ) < 1000) ∧ ((1000 : ℚ) ≤ 4095) ∧ ((1000 : ℚ) ≤ 65535) ∧
    normalizeColorChannelTo255 (.finite 1000) = jsRound (1000 / 4095 * 255) ∧
    (0 ≤ normalizeColorChannelTo255 (.finite 1000) ∧
      normalizeColorChannelTo255 (.finite 1000) ≤ 255) :=
  ⟨by norm_num, by norm_num, by norm_num,
    (normalizeColorChannelTo255_spec 1000).2.2.2.2.1 (by norm_num) (by norm_num),
    (normalizeColorChannelTo255_spec 1000).2.2.2.2.2.2 (by norm_num)⟩

/-- C4 (amended): for every solid gradient of style linear or
reflected with document angle θ, the renderer emits exactly the angle
`cssAngleOf θ = (90 − θ) % 360` computed with JavaScript's truncating
remainder: congruent to `90 − θ` modulo 360, strictly between −360 and
360, and non-negative whenever `90 − θ ≥ 0` — but it is not always the
mathematical modulus in `[0, 360)`, since it is negative for example
at θ = 180 (see the counterexample). -/
theorem convertGradientToCss_angle_spec (θ : ℚ) (sg : SolidGradientData)
    (hne : sg.colorStops ≠ []) :
    convertGradientToCss (.solid sg) (some .linear) (some θ)
        = .linear (cssAngleOf θ) (finalGradientStops sg.colorStops) ∧
    convertGradientToCss (.solid sg) (some .reflected) (some θ)
        = .repeatingLinear (cssAngleOf θ) (finalGradientStops sg.colorStops) ∧
    (-360 : ℚ) < cssAngleOf θ ∧ cssAngleOf θ < 360 ∧
    (0 ≤ 90 - θ → 0 ≤ cssAngleOf θ) ∧
    ∃ k : ℤ, (90 - θ) - cssAngleOf θ = 360 * k := by
  obtain ⟨h1, h2, h3, k, hk⟩ := jsRem_props (90 - θ) (show (0 : ℚ) < 360 by norm_num)
  have hemp : sg.colorStops.isEmpty = false := by
    simp [List.isEmpty_iff, hne]
  refine ⟨?_, ?_, ?_, ?_, ?_, ⟨k, ?_⟩⟩
  · simp [convertGradientToCss, hemp]
  · simp [convertGradientToCss, hemp]
  · simpa [cssAngleOf] using h2
  · simpa [cssAngleOf] using h1
  · simpa [cssAngleOf] using h3
  · simpa [cssAngleOf] using hk

/-- C4 counterexample: a solid linear gradient with document angle 180
is rendered with CSS angle −90, which is negative, so the emitted
angle is not the mathematical modulus in `[0, 360)`. -/
theorem convertGradientToCss_angle_cex :
    convertGradientToCss (.solid ⟨[⟨none, .finite 50⟩]⟩) (some .linear) (some 180)
        = .linear (-90) (finalGradientStops [⟨none, .finite 50⟩]) ∧
    ¬ (0 : ℚ) ≤ cssAngleOf 180 := by
  have h : cssAngleOf 180 = -90 := by
    norm_num [cssAngleOf, jsRem, jsTrunc]
  constructor
  · simp [convertGradientToCss, h]
  · rw [h]
    norm_num

/-- C4 witness: the amended angle facts at θ = 45 with a one-stop
gradient. -/
theorem convertGradientToCss_angle_spec_witness :
    (([⟨none, .finite 50⟩] : List GradStop) ≠ []) ∧
    (convertGradientToCss (.solid ⟨[⟨none, .finite 50⟩]⟩) (some .linear) (some 45)
        = .linear (cssAngleOf 45) (finalGradientStops [⟨none, .finite 50⟩]) ∧
    convertGradientToCss (.solid ⟨[⟨none, .finite 50⟩]⟩) (some .reflected) (some 45)
        = .repeatingLinear (cssAngleOf 45) (finalGradientStops [⟨none, .finite 50⟩]) ∧
    (-360 : ℚ) < cssAngleOf 45 ∧ cssAngleOf 45 < 360 ∧
    (0 ≤ 90 - (45 : ℚ) → 0 ≤ cssAngleOf 45) ∧
    ∃ k : ℤ, (90 - (45 : ℚ)) - cssAngleOf 45 = 360 * k) :=
  ⟨by simp, convertGradientToCss_angle_spec 45 ⟨[⟨none, .finite 50⟩]⟩ (by simp)⟩

/-- Default pixel-unit conversion context used by concrete scenarios:
a 1920x1080 document with default options. -/
def pxContext : ConversionContextModel :=
  { psdDimensions := { width := 1920, height := 1080 }, options := {} }

/-- Trivial LAB conversion instantiation for concrete scenarios (no
scenario below touches the LAB branch, so the choice is irrelevant). -/
def labZero : LabConv := fun _ _ _ => { r := 0, g := 0, b := 0 }

theorem jsToLowerCase_eq_empty {t : String} (h : jsToLowerCase t = "") : t = "" := by
  have hmap : t.data.map jsCharToLower = [] := congrArg String.data h
  have hnil : t.data = [] := List.map_eq_nil_iff.mp hmap
  cases t
  simp only [String.data] at hnil
  subst hnil
  rfl

/-- C10 (confirmed): blend-mode mapping is case-insensitive — any two
names with the same lowercasing map to the same CSS value — and an
undefined or empty blend mode maps to no value, so a layer with an
undefined or empty blend mode yields a record without a
mix-blend-mode property. -/
theorem convertBlendMode_spec (s t : String) (l : LayerData)
    (ctx : ConversionContextModel)
    (hst : jsToLowerCase s = jsToLowerCase t)
    (hbm : l.blendMode = none ∨ l.blendMode = some "") :
    convertBlendMode (some s) = convertBlendMode (some t) ∧
    convertBlendMode none = none ∧
    convertBlendMode (some "") = none ∧
    convertBlendMode (some "Multiply") = some "multiply" ∧
    (convertImageLayer l ctx).mixBlendMode = none := by
  refine ⟨?_, rfl, rfl, by decide, ?_⟩
  · by_cases hs : s = ""
    · subst hs
      have ht : t = "" := jsToLowerCase_eq_empty (by simpa using hst.symm)
      subst ht
      rfl
    · have ht : t ≠ "" := by
        intro he
        subst he
        exact hs (jsToLowerCase_eq_empty (by simpa using hst))
      simp [convertBlendMode, hs, ht, hst]
  · rcases hbm with h | h <;>
      rcases ho : l.opacity with _ | o <;>
        simp [convertImageLayer, baseStyles, h, ho] <;>
        split_ifs <;> simp

/-- C10 witness: the case-insensitivity facts at "MULTIPLY" versus
"multiply" on a layer without a blend mode. -/
theorem convertBlendMode_spec_witness :
    (jsToLowerCase "MULTIPLY" = jsToLowerCase "multiply") ∧
    (({} : LayerData).blendMode = none ∨ ({} : LayerData).blendMode = some "") ∧
    (convertBlendMode (some "MULTIPLY") = convertBlendMode (some "multiply") ∧
    convertBlendMode none = none ∧
    convertBlendMode (some "") = none ∧
    convertBlendMode (some "Multiply") = some "multiply" ∧
    (convertImageLayer {} pxContext).mixBlendMode = none) :=
  ⟨by decide, Or.inl rfl,
    convertBlendMode_spec "MULTIPLY" "multiply" {} pxContext (by decide) (Or.inl rfl)⟩

/-- C9 (amended): option validation rejects exactly a wrong-typed
`logging` or `includeHidden` value, as a fatal structured error raised
before any layer processing; every other aspect of the options object
— in particular any unrecognized key — is never examined and is
silently ignored rather than rejected. -/
theorem validateConversionOptions_spec (o : OptionsObject) (hobj : o.isObject = true) :
    validateConversionOptions o = .ok () ↔
      (∀ v, o.logging = some v → v.isBoolean = true) ∧
      (∀ v, o.includeHidden = some v → v.isBoolean = true) := by
  unfold validateConversionOptions
  rw [hobj]
  rcases ol : o.logging with _ | v <;>
    rcases oi : o.includeHidden with _ | w <;>
      simp [Option.any] <;>
      first
      | (cases v <;> simp)
      | (cases w <;> simp)
      | (cases v <;> cases w <;> simp [JsVal.isBoolean])

/-- C9 counterexample: an options object whose only content is an
unrecognized key (and one with a well-typed recognized key plus
unrecognized keys) passes validation with no error, so unrecognized
option keys are not rejected. -/
theorem validateConversionOptions_unknown_key_cex :
    validateConversionOptions { extraKeys := ["unknownOption"] } = .ok () ∧
    validateConversionOptions
      { logging := some (.bool true), extraKeys := ["unknownOption", "units"] } = .ok () := by
  constructor <;> rfl

/-- C9 witness: the amended acceptance characterization at a concrete
well-typed options object carrying an unrecognized key. -/
theorem validateConversionOptions_spec_witness :
    (({ logging := some (.bool true), extraKeys := ["x"] } : OptionsObject).isObject = true) ∧
    (validateConversionOptions { logging := some (.bool true), extraKeys := ["x"] } = .ok () ↔
      (∀ v, ({ logging := some (.bool true), extraKeys := ["x"] } : OptionsObject).logging = some v →
        v.isBoolean = true) ∧
      (∀ v, ({ logging := some (.bool true), extraKeys := ["x"] } : OptionsObject).includeHidden = some v →
        v.isBoolean = true)) :=
  ⟨rfl, validateConversionOptions_spec { logging := some (.bool true), extraKeys := ["x"] } rfl⟩

/-- C5 (code bug): because the grayscale test `k in color` precedes
the CMYK test in `convertColorToHex`, every CMYK value takes the
grayscale branch and the CMYK branch is unreachable; pure cyan
(c = 255, m = y = k = 0) renders as white `#ffffff` instead of the
CMYK-formula result `#00ffff`. -/
theorem convertColorToHex_cmyk_shadowed (labToRgb : LabConv) :
    convertColorToHex labToRgb { c := some 255, m := some 0, y := some 0, k := some 0 }
        = some "#ffffff" ∧
    (rgbaToHex (cmykToRgb (255 / 255) (0 / 255) (0 / 255) (0 / 255)).r
        (cmykToRgb (255 / 255) (0 / 255) (0 / 255) (0 / 255)).g
        (cmykToRgb (255 / 255) (0 / 255) (0 / 255) (0 / 255)).b none) = "#00ffff" ∧
    ("#ffffff" : String) ≠ "#00ffff" := by
  have hround1 : jsRound ((1 : ℚ) * 255) = 255 := by norm_num [jsRound]
  have hround0 : jsRound ((0 : ℚ) * 255) = 0 := by norm_num [jsRound]
  have hhexw : rgbaToHex 1 1 1 none = "#ffffff" := by
    simp only [rgbaToHex, hround1]
    decide
  have hhexc : rgbaToHex 0 1 1 none = "#00ffff" := by
    simp only [rgbaToHex, hround1, hround0]
    decide
  refine ⟨?_, ?_, by decide⟩
  · have hstep : convertColorToHex labToRgb
        { c := some 255, m := some 0, y := some 0, k := some 0 }
        = some (rgbaToHex (1 - (0 : ℚ) / 255) (1 - (0 : ℚ) / 255) (1 - (0 : ℚ) / 255) none) := by
      simp [convertColorToHex]
    rw [hstep]
    have hv : (1 : ℚ) - (0 : ℚ) / 255 = 1 := by norm_num
    rw [hv, hhexw]
  · have hr : cmykToRgb ((255 : ℚ) / 255) (0 / 255) (0 / 255) (0 / 255)
        = { r := 0, g := 1, b := 1 } := by
      unfold cmykToRgb
      norm_num
    rw [hr]
    exact hhexc

theorem jsOr_of_ne_or_eq {x y : ℚ} (h : x ≠ 0 ∨ x = y) : jsOr x y = x := by
  unfold jsOr
  rcases h with h | h
  · rw [if_neg h]
  · split_ifs with hx
    · rw [h]
    · rfl

/-- Text layer whose explicit stored box has a zero left coordinate
that differs from the layer rectangle: the counterexample input for
the zero-coordinate fallback. -/
def layerZeroBox : LayerData :=
  { left := some 5, top := some 10, right := some 100, bottom := some 50,
    text := some { text := "hi", boxBounds := some (0, 10, 100, 50) } }

/-- C3 counterexample: for a nominal box with left = 0 on a layer
whose rectangle has left = 5 and no transform, the resolver returns
left = 5 — the falsy-fallback replaces the zero nominal coordinate —
so the resolved box does not equal the nominal box when a nominal
coordinate is 0. -/
theorem getTextLayerBoundingBox_zero_coord_cex :
    nominalBox layerZeroBox = (0, 10, 100, 50) ∧
    (getTextLayerBoundingBox layerZeroBox).left = 5 ∧
    (5 : ℚ) ≠ 0 := by
  refine ⟨rfl, ?_, by norm_num⟩
  simp [getTextLayerBoundingBox, layerZeroBox, nominalBox, boundingBoxArr, defaultBounds, jsOr]

/-- C3 (amended): when the affine transform is absent or all six
coefficients are zero, each resolved coordinate is the nominal one
passed through the falsy fallback `coord || layerDefault`; hence the
resolved box equals the nominal box exactly provided every nominal
coordinate is either nonzero or equal to the corresponding
layer-rectangle default — a zero nominal coordinate that differs from
the default is replaced by the default (see the counterexample). -/
theorem getTextLayerBoundingBox_noTransform_spec (l : LayerData) (a b c d : ℚ)
    (hnb : nominalBox l = (a, b, c, d))
    (htr : l.text.bind (·.transform) = none ∨
      l.text.bind (·.transform) = some (0, 0, 0, 0, 0, 0))
    (h1 : a ≠ 0 ∨ a = (defaultBounds l).left)
    (h2 : b ≠ 0 ∨ b = (defaultBounds l).top)
    (h3 : c ≠ 0 ∨ c = (defaultBounds l).right)
    (h4 : d ≠ 0 ∨ d = (defaultBounds l).bottom) :
    getTextLayerBoundingBox l =
      { left := a, top := b, right := c, bottom := d,
        width := c - a, height := d - b } := by
  unfold getTextLayerBoundingBox
  rw [hnb]
  rcases htr with h | h <;>
    rw [h] <;>
    simp only [Option.getD_none, Option.getD_some] <;>
    rw [if_pos (by norm_num)] <;>
    rw [jsOr_of_ne_or_eq h1, jsOr_of_ne_or_eq h2, jsOr_of_ne_or_eq h3, jsOr_of_ne_or_eq h4]

/-- Text layer with an explicit stored box of nonzero coordinates and
no transform, for the C3 witness. -/
def layerPlainBox : LayerData :=
  { text := some { text := "hi", boxBounds := some (1, 2, 3, 4) } }

/-- C3 witness: the amended statement at a concrete no-transform layer
whose nominal coordinates are all nonzero. -/
theorem getTextLayerBoundingBox_noTransform_spec_witness :
    (nominalBox layerPlainBox = (1, 2, 3, 4)) ∧
    (layerPlainBox.text.bind (·.transform) = none ∨
      layerPlainBox.text.bind (·.transform) = some (0, 0, 0, 0, 0, 0)) ∧
    ((1 : ℚ) ≠ 0 ∨ (1 : ℚ) = (defaultBounds layerPlainBox).left) ∧
    ((2 : ℚ) ≠ 0 ∨ (2 : ℚ) = (defaultBounds layerPlainBox).top) ∧
    ((3 : ℚ) ≠ 0 ∨ (3 : ℚ) = (defaultBounds layerPlainBox).right) ∧
    ((4 : ℚ) ≠ 0 ∨ (4 : ℚ) = (defaultBounds layerPlainBox).bottom) ∧
    getTextLayerBoundingBox layerPlainBox =
      { left := 1, top := 2, right := 3, bottom := 4,
        width := 3 - 1, height := 4 - 2 } :=
  ⟨rfl, Or.inl rfl, Or.inl (by norm_num), Or.inl (by norm_num),
    Or.inl (by norm_num), Or.inl (by norm_num),
    getTextLayerBoundingBox_noTransform_spec layerPlainBox 1 2 3 4 rfl (Or.inl rfl)
      (Or.inl (by norm_num)) (Or.inl (by norm_num))
      (Or.inl (by norm_num)) (Or.inl (by norm_num))⟩

theorem baseStyles_geometry (l : LayerData) (ctx : ConversionContextModel)
    (hunits : ctx.options.units ≠ some "percent") :
    (baseStyles l ctx).left = .num ((jsRound (getLayerBounds l).left : ℚ)) ∧
    (baseStyles l ctx).top = .num ((jsRound (getLayerBounds l).top : ℚ)) ∧
    (baseStyles l ctx).width = .num ((jsRound (getLayerBounds l).right : ℚ)
      - (jsRound (getLayerBounds l).left : ℚ)) ∧
    (baseStyles l ctx).height = .num ((jsRound (getLayerBounds l).bottom : ℚ)
      - (jsRound (getLayerBounds l).top : ℚ)) := by
  simp only [baseStyles, normalizeLayerBounds, calculateLayerDimensions,
    convertDimensionValue, convertPxToPercent, if_neg hunits]
  repeat' split
  all_goals simp

theorem convertTextLayer_geometry (labToRgb : LabConv) (l : LayerData)
    (ctx : ConversionContextModel) :
    (convertTextLayer labToRgb l ctx).left = (baseStyles l ctx).left ∧
    (convertTextLayer labToRgb l ctx).top = (baseStyles l ctx).top ∧
    (convertTextLayer labToRgb l ctx).width = (baseStyles l ctx).width ∧
    (convertTextLayer labToRgb l ctx).height = (baseStyles l ctx).height := by
  simp only [convertTextLayer]
  repeat' split
  all_goals simp [assignTextStyles]

/-- Raster layer protruding past the canvas on the left, the
counterexample input for the non-negativity claim. -/
def negBoundsLayer : LayerData :=
  { left := some (-5), top := some 0, right := some 10, bottom := some 10,
    hasCanvas := true }

/-- C7 counterexample: a layer with stored left = −5 is included in
the output and its emitted record has left = −5 after rounding — the
engine never clamps, so the claimed unconditional non-negativity
fails. -/
theorem styleRecord_nonneg_cex :
    (processPsdReal labZero false pxContext [.node negBoundsLayer []]).images.map (·.left)
        = [CssVal.num (-5)] ∧
    ¬ (0 : ℚ) ≤ -5 := by
  constructor
  · have h : jsRound (-5 : ℚ) = -5 := by norm_num [jsRound]
    have h0 : jsRound (0 : ℚ) = 0 := by norm_num [jsRound]
    have h10 : jsRound (10 : ℚ) = 10 := by norm_num [jsRound]
    simp [processPsdReal, processLayers, flattenForest, flattenTree, shouldIncludeLayer,
      isTextLayer, isImageLayer, safeLayerConversion, layerDisplayName, convertImageLayer,
      baseStyles, getLayerBounds, normalizeLayerBounds, calculateLayerDimensions,
      convertDimensionValue, convertPxToPercent, negBoundsLayer, getImageDataUrl,
      pxContext, h]
  · norm_num

/-- C7 (amended): for a layer whose stored bounds are non-negative and
ordered (left ≤ right, top ≤ bottom), the emitted record's left, top,
width and height are non-negative after rounding, with
width = round(right) − round(left) and
height = round(bottom) − round(top) (equal to right − left and
bottom − top for integral bounds); this holds for both text and image
records, which in this conversion path both use the stored layer
rectangle.  Without the ordering/non-negativity premise the claim
fails, since the engine never clamps (see the counterexample). -/
theorem styleRecord_bounds_spec (labToRgb : LabConv) (l : LayerData)
    (ctx : ConversionContextModel)
    (hunits : ctx.options.units ≠ some "percent")
    (h0l : 0 ≤ (getLayerBounds l).left)
    (hlr : (getLayerBounds l).left ≤ (getLayerBounds l).right)
    (h0t : 0 ≤ (getLayerBounds l).top)
    (htb : (getLayerBounds l).top ≤ (getLayerBounds l).bottom) :
    ∃ L T W H : ℤ,
      (convertImageLayer l ctx).left = .num ((L : ℚ)) ∧
      (convertImageLayer l ctx).top = .num ((T : ℚ)) ∧
      (convertImageLayer l ctx).width = .num ((W : ℚ)) ∧
      (convertImageLayer l ctx).height = .num ((H : ℚ)) ∧
      (convertTextLayer labToRgb l ctx).left = .num ((L : ℚ)) ∧
      (convertTextLayer labToRgb l ctx).top = .num ((T : ℚ)) ∧
      (convertTextLayer labToRgb l ctx).width = .num ((W : ℚ)) ∧
      (convertTextLayer labToRgb l ctx).height = .num ((H : ℚ)) ∧
      0 ≤ L ∧ 0 ≤ T ∧ 0 ≤ W ∧ 0 ≤ H ∧
      L = jsRound (getLayerBounds l).left ∧
      T = jsRound (getLayerBounds l).top ∧
      W = jsRound (getLayerBounds l).right - jsRound (getLayerBounds l).left ∧
      H = jsRound (getLayerBounds l).bottom - jsRound (getLayerBounds l).top := by
  obtain ⟨hbl, hbt, hbw, hbh⟩ := baseStyles_geometry l ctx hunits
  obtain ⟨htl, htt, htw, hth⟩ := convertTextLayer_geometry labToRgb l ctx
  refine ⟨jsRound (getLayerBounds l).left, jsRound (getLayerBounds l).top,
    jsRound (getLayerBounds l).right - jsRound (getLayerBounds l).left,
    jsRound (getLayerBounds l).bottom - jsRound (getLayerBounds l).top,
    ?_, ?_, ?_, ?_, ?_, ?_, ?_, ?_, ?_, ?_, ?_, ?_, rfl, rfl, rfl, rfl⟩
  · simpa [convertImageLayer] using hbl
  · simpa [convertImageLayer] using hbt
  · rw [show (convertImageLayer l ctx).width = (baseStyles l ctx).width from by
      simp [convertImageLayer], hbw]
    push_cast
    ring_nf
  · rw [show (convertImageLayer l ctx).height = (baseStyles l ctx).height from by
      simp [convertImageLayer], hbh]
    push_cast
    ring_nf
  · rw [htl, hbl]
  · rw [htt, hbt]
  · rw [htw, hbw]
    push_cast
    ring_nf
  · rw [hth, hbh]
    push_cast
    ring_nf
  · exact jsRound_nonneg h0l
  · exact jsRound_nonneg h0t
  · have := jsRound_mono hlr
    omega
  · have := jsRound_mono htb
    omega

/-- Plain raster layer with well-formed bounds for the C7 witness. -/
def plainImageLayer : LayerData :=
  { left := some 2, top := some 3, right := some 12, bottom := some 13,
    hasCanvas := true }

/-- C7 witness: the amended bounds facts at a concrete image layer
with ordered non-negative bounds. -/
theorem styleRecord_bounds_spec_witness :
    (pxContext.options.units ≠ some "percent") ∧
    (0 ≤ (getLayerBounds plainImageLayer).left) ∧
    ((getLayerBounds plainImageLayer).left ≤ (getLayerBounds plainImageLayer).right) ∧
    (0 ≤ (getLayerBounds plainImageLayer).top) ∧
    ((getLayerBounds plainImageLayer).top ≤ (getLayerBounds plainImageLayer).bottom) ∧
    (∃ L T W H : ℤ,
      (convertImageLayer plainImageLayer pxContext).left = .num ((L : ℚ)) ∧
      (convertImageLayer plainImageLayer pxContext).top = .num ((T : ℚ)) ∧
      (convertImageLayer plainImageLayer pxContext).width = .num ((W : ℚ)) ∧
      (convertImageLayer plainImageLayer pxContext).height = .num ((H : ℚ)) ∧
      (convertTextLayer labZero plainImageLayer pxContext).left = .num ((L : ℚ)) ∧
      (convertTextLayer labZero plainImageLayer pxContext).top = .num ((T : ℚ)) ∧
      (convertTextLayer labZero plainImageLayer pxContext).width = .num ((W : ℚ)) ∧
      (convertTextLayer labZero plainImageLayer pxContext).height = .num ((H : ℚ)) ∧
      0 ≤ L ∧ 0 ≤ T ∧ 0 ≤ W ∧ 0 ≤ H ∧
      L = jsRound (getLayerBounds plainImageLayer).left ∧
      T = jsRound (getLayerBounds plainImageLayer).top ∧
      W = jsRound (getLayerBounds plainImageLayer).right
        - jsRound (getLayerBounds plainImageLayer).left ∧
      H = jsRound (getLayerBounds plainImageLayer).bottom
        - jsRound (getLayerBounds plainImageLayer).top) :=
  ⟨by simp [pxContext], by norm_num [getLayerBounds, plainImageLayer],
    by norm_num [getLayerBounds, plainImageLayer],
    by norm_num [getLayerBounds, plainImageLayer],
    by norm_num [getLayerBounds, plainImageLayer],
    styleRecord_bounds_spec labZero plainImageLayer pxContext (by simp [pxContext])
      (by norm_num [getLayerBounds, plainImageLayer])
      (by norm_num [getLayerBounds, plainImageLayer])
      (by norm_num [getLayerBounds, plainImageLayer])
      (by norm_num [getLayerBounds, plainImageLayer])⟩

theorem isImageLayer_not_text {l : LayerData} (h : isImageLayer l = true) :
    isTextLayer l = false := by
  rcases ht : isTextLayer l
  · rfl
  · rw [isImageLayer, ht] at h
    simp at h

/-- C1 (confirmed): for every flattened layer list and any per-layer
conversion behavior, if converting one included layer fails
(`safeLayerConversion` catches the exception), that layer contributes
nothing — the text and image outputs equal those of the same run with
the layer removed — every other layer is still processed, and the
failure is logged with the layer's display name; `processLayers` is a
total function, so the caller never observes a throw escaping the
loop. -/
theorem processLayers_isolation (includeHidden : Bool)
    (convT convI : LayerData → Except String StyleRecord)
    (pre post : List LayerData) (l : LayerData) (e : String)
    (hinc : shouldIncludeLayer l includeHidden = true)
    (hfail : (isTextLayer l = true ∧ convT l = .error e) ∨
             (isImageLayer l = true ∧ convI l = .error e)) :
    (processLayers includeHidden convT convI (pre ++ l :: post)).texts
        = (processLayers includeHidden convT convI (pre ++ post)).texts ∧
    (processLayers includeHidden convT convI (pre ++ l :: post)).images
        = (processLayers includeHidden convT convI (pre ++ post)).images ∧
    (layerDisplayName l, e) ∈
      (processLayers includeHidden convT convI (pre ++ l :: post)).warnings := by
  induction pre with
  | nil =>
    simp only [List.nil_append]
    rcases hfail with ⟨ht, he⟩ | ⟨hi, he⟩
    · simp [processLayers, hinc, ht, he, safeLayerConversion]
    · simp [processLayers, hinc, isImageLayer_not_text hi, hi, he, safeLayerConversion]
  | cons x xs ih =>
    obtain ⟨ih1, ih2, ih3⟩ := ih
    simp only [List.cons_append, processLayers]
    by_cases hsx : shouldIncludeLayer x includeHidden = true
    · simp only [hsx, if_true]
      by_cases hxt : isTextLayer x = true
      · simp only [hxt, if_true]
        rcases hcx : convT x with err | a <;>
          simp [safeLayerConversion, ih1, ih2, ih3]
      · have hxt' : isTextLayer x = false := by
          rcases h : isTextLayer x
          · rfl
          · exact absurd h hxt
        simp only [hxt', Bool.false_eq_true, if_false]
        by_cases hxi : isImageLayer x = true
        · simp only [hxi, if_true]
          rcases hcx : convI x with err | a <;>
            simp [safeLayerConversion, ih1, ih2, ih3]
        · have hxi' : isImageLayer x = false := by
            rcases h : isImageLayer x
            · rfl
            · exact absurd h hxi
          simp [hxi', ih1, ih2, ih3]
    · have hsx' : shouldIncludeLayer x includeHidden = false := by
        rcases h : shouldIncludeLayer x includeHidden
        · rfl
        · exact absurd h hsx
      simp [hsx', ih1, ih2, ih3]

/-- Text layer that the C1 witness converts with a failing converter. -/
def failingTextLayer : LayerData :=
  { name := some "broken", text := some { text := "boom" } }

/-- C1 witness: isolation at a concrete one-layer list whose text
conversion throws. -/
theorem processLayers_isolation_witness :
    (shouldIncludeLayer failingTextLayer false = true) ∧
    ((isTextLayer failingTextLayer = true ∧
        (fun (_ : LayerData) => (.error "boom" : Except String StyleRecord)) failingTextLayer
          = .error "boom") ∨
      (isImageLayer failingTextLayer = true ∧
        (fun (_ : LayerData) => (.error "boom" : Except String StyleRecord)) failingTextLayer
          = .error "boom")) ∧
    ((processLayers false (fun _ => .error "boom") (fun _ => .error "boom")
        ([] ++ failingTextLayer :: [])).texts
      = (processLayers false (fun _ => .error "boom") (fun _ => .error "boom")
        ([] ++ [])).texts ∧
    (processLayers false (fun _ => .error "boom") (fun _ => .error "boom")
        ([] ++ failingTextLayer :: [])).images
      = (processLayers false (fun _ => .error "boom") (fun _ => .error "boom")
        ([] ++ [])).images ∧
    (layerDisplayName failingTextLayer, "boom") ∈
      (processLayers false (fun _ => .error "boom") (fun _ => .error "boom")
        ([] ++ failingTextLayer :: [])).warnings) :=
  ⟨rfl, Or.inl ⟨rfl, rfl⟩,
    processLayers_isolation false (fun _ => .error "boom") (fun _ => .error "boom")
      [] [] failingTextLayer "boom" rfl (Or.inl ⟨rfl, rfl⟩)⟩

theorem shouldIncludeLayer_true_eq (x : LayerData) : shouldIncludeLayer x true = true := rfl

theorem processLayers_filter (inc : Bool)
    (cT cI : LayerData → Except String StyleRecord) (L : List LayerData) :
    processLayers inc cT cI L
      = processLayers true cT cI (L.filter (fun x => shouldIncludeLayer x inc)) := by
  induction L with
  | nil => rfl
  | cons x xs ih =>
    by_cases h : shouldIncludeLayer x inc = true
    · rw [List.filter_cons]
      simp only [h, if_true]
      simp only [processLayers, h, shouldIncludeLayer_true_eq, if_true, ih]
    · have h' : shouldIncludeLayer x inc = false := by
        rcases hb : shouldIncludeLayer x inc
        · rfl
        · exact absurd hb h
      rw [List.filter_cons]
      simp only [h', Bool.false_eq_true, if_false]
      simp only [processLayers, h', Bool.false_eq_true, if_false, ih]

theorem processLayers_all_spec (cT cI : LayerData → Except String StyleRecord)
    (L : List LayerData) :
    (processLayers true cT cI L).texts
        = L.filterMap (fun x => if isTextLayer x then (cT x).toOption else none) ∧
    (processLayers true cT cI L).images
        = L.filterMap (fun x =>
            if isTextLayer x then none
            else if isImageLayer x then (cI x).toOption else none) := by
  induction L with
  | nil => exact ⟨rfl, rfl⟩
  | cons x xs ih =>
    obtain ⟨ih1, ih2⟩ := ih
    simp only [processLayers, shouldIncludeLayer_true_eq, if_true, List.filterMap_cons]
    by_cases hxt : isTextLayer x = true
    · rcases hc : cT x with err | a <;>
        simp [safeLayerConversion, hxt, hc, ih1, ih2, Except.toOption]
    · have hxt' : isTextLayer x = false := by
        rcases h : isTextLayer x
        · rfl
        · exact absurd h hxt
      by_cases hxi : isImageLayer x = true
      · rcases hc : cI x with err | a <;>
          simp [safeLayerConversion, hxt', hxi, hc, ih1, ih2, Except.toOption]
      · have hxi' : isImageLayer x = false := by
          rcases h : isImageLayer x
          · rfl
          · exact absurd h hxi
        simp [hxt', hxi', ih1, ih2]

/-- Visible text layer of the C8 scenario. -/
def visibleTextLayer : LayerData :=
  { name := some "visible", text := some { text := "hello" } }

/-- Hidden text layer of the C8 scenario. -/
def hiddenTextLayer : LayerData :=
  { name := some "hidden", hidden := true, text := some { text := "bye" } }

/-- C8 (confirmed): for every input layer tree and any conversion
behavior, the run with `includeHidden = true` yields at least as many
text records, image records, and total records as the run with
`includeHidden = false`; and on the concrete tree with one visible and
one hidden text layer the real pipeline yields exactly one text record
without hidden layers and exactly two with them. -/
theorem processLayers_includeHidden_monotone (children : List LayerTree)
    (cT cI : LayerData → Except String StyleRecord) :
    (processLayers false cT cI (flattenForest children)).texts.length
        ≤ (processLayers true cT cI (flattenForest children)).texts.length ∧
    (processLayers false cT cI (flattenForest children)).images.length
        ≤ (processLayers true cT cI (flattenForest children)).images.length ∧
    (processLayers false cT cI (flattenForest children)).texts.length
        + (processLayers false cT cI (flattenForest children)).images.length
      ≤ (processLayers true cT cI (flattenForest children)).texts.length
        + (processLayers true cT cI (flattenForest children)).images.length ∧
    (processPsdReal labZero false pxContext
        [.node visibleTextLayer [], .node hiddenTextLayer []]).texts.length = 1 ∧
    (processPsdReal labZero true pxContext
        [.node visibleTextLayer [], .node hiddenTextLayer []]).texts.length = 2 := by
  set L := flattenForest children with hL
  obtain ⟨ha1, ha2⟩ := processLayers_all_spec cT cI L
  obtain ⟨hf1, hf2⟩ := processLayers_all_spec cT cI
    (L.filter (fun x => shouldIncludeLayer x false))
  have hsub : List.Sublist (L.filter (fun x => shouldIncludeLayer x false)) L :=
    L.filter_sublist
  have htexts : (processLayers false cT cI L).texts.length
      ≤ (processLayers true cT cI L).texts.length := by
    rw [processLayers_filter false cT cI L, hf1, ha1]
    exact (hsub.filterMap _).length_le
  have himages : (processLayers false cT cI L).images.length
      ≤ (processLayers true cT cI L).images.length := by
    rw [processLayers_filter false cT cI L, hf2, ha2]
    exact (hsub.filterMap _).length_le
  exact ⟨htexts, himages, Nat.add_le_add htexts himages, rfl, rfl⟩

/-! Helper lemmas for the gradient stop pipeline. -/

theorem foldl_min_le_self (ps : List ℚ) (a : ℚ) : ps.foldl min a ≤ a := by
  induction ps generalizing a with
  | nil => exact le_refl a
  | cons x xs ih => exact le_trans (ih (min a x)) (min_le_left a x)

theorem foldl_min_le_of_mem {ps : List ℚ} {p : ℚ} (a : ℚ) (hp : p ∈ ps) :
    ps.foldl min a ≤ p := by
  induction ps generalizing a with
  | nil => cases hp
  | cons x xs ih =>
    rcases List.mem_cons.mp hp with h | h
    · subst h
      exact le_trans (foldl_min_le_self xs (min a p)) (min_le_right a p)
    · exact ih (min a x) h

theorem self_le_foldl_max (ps : List ℚ) (a : ℚ) : a ≤ ps.foldl max a := by
  induction ps generalizing a with
  | nil => exact le_refl a
  | cons x xs ih => exact le_trans (le_max_left a x) (ih (max a x))

theorem mem_le_foldl_max {ps : List ℚ} {p : ℚ} (a : ℚ) (hp : p ∈ ps) :
    p ≤ ps.foldl max a := by
  induction ps generalizing a with
  | nil => cases hp
  | cons x xs ih =>
    rcases List.mem_cons.mp hp with h | h
    · subst h
      exact le_trans (le_max_right a p) (self_le_foldl_max xs (max a p))
    · exact ih (max a x) h

theorem listMinPos_le {ps : List ℚ} {p : ℚ} (hne : ps ≠ []) (hp : p ∈ ps) :
    listMinPos ps ≤ p := by
  cases ps with
  | nil => exact absurd rfl hne
  | cons x xs =>
    rcases List.mem_cons.mp hp with h | h
    · subst h
      exact foldl_min_le_self xs p
    · exact foldl_min_le_of_mem x h

theorem le_listMaxPos {ps : List ℚ} {p : ℚ} (hne : ps ≠ []) (hp : p ∈ ps) :
    p ≤ listMaxPos ps := by
  cases ps with
  | nil => exact absurd rfl hne
  | cons x xs =>
    rcases List.mem_cons.mp hp with h | h
    · subst h
      exact self_le_foldl_max xs p
    · exact mem_le_foldl_max x h

theorem foldl_min_of_all_eq {ps : List ℚ} {a : ℚ} (h : ∀ x ∈ ps, x = a) :
    ps.foldl min a = a := by
  induction ps with
  | nil => rfl
  | cons x xs ih =>
    have hx : x = a := h x (List.mem_cons_self x xs)
    subst hx
    simp only [List.foldl_cons, min_self]
    exact ih fun y hy => h y (List.mem_cons_of_mem x hy)

theorem foldl_max_of_all_eq {ps : List ℚ} {a : ℚ} (h : ∀ x ∈ ps, x = a) :
    ps.foldl max a = a := by
  induction ps with
  | nil => rfl
  | cons x xs ih =>
    have hx : x = a := h x (List.mem_cons_self x xs)
    subst hx
    simp only [List.foldl_cons, max_self]
    exact ih fun y hy => h y (List.mem_cons_of_mem x hy)

theorem minMax_eq_iff_all_eq {ps : List ℚ} (hne : ps ≠ []) :
    listMinPos ps = listMaxPos ps ↔ (∀ p ∈ ps, ∀ q ∈ ps, p = q) := by
  constructor
  · intro h p hp q hq
    have h1 : listMinPos ps ≤ p := listMinPos_le hne hp
    have h2 : p ≤ listMaxPos ps := le_listMaxPos hne hp
    have h3 : listMinPos ps ≤ q := listMinPos_le hne hq
    have h4 : q ≤ listMaxPos ps := le_listMaxPos hne hq
    have hpmin : p = listMinPos ps := le_antisymm (h ▸ h2) h1
    have hqmin : q = listMinPos ps := le_antisymm (h ▸ h4) h3
    rw [hpmin, hqmin]
  · intro h
    cases ps with
    | nil => exact absurd rfl hne
    | cons x xs =>
      have hall : ∀ y ∈ xs, y = x := fun y hy =>
        h y (List.mem_cons_of_mem x hy) x (List.mem_cons_self x xs)
      show xs.foldl min x = xs.foldl max x
      rw [foldl_min_of_all_eq hall, foldl_max_of_all_eq hall]

theorem evenPos_bounds (n j : ℕ) (hj : j < n) :
    0 ≤ evenPos n j ∧ evenPos n j ≤ 100 := by
  unfold evenPos
  split_ifs with h
  · have hn1 : (0 : ℚ) < (n : ℚ) - 1 := by
      have : (1 : ℚ) < (n : ℚ) := by exact_mod_cast h
      linarith
    have hjn : (j : ℚ) ≤ (n : ℚ) - 1 := by
      have : (j : ℚ) + 1 ≤ (n : ℚ) := by exact_mod_cast hj
      linarith
    constructor
    · positivity
    · have hdiv : (j : ℚ) / ((n : ℚ) - 1) ≤ 1 := (div_le_one hn1).mpr hjn
      nlinarith
  · norm_num

theorem jsClamp_id {x : ℚ} (h0 : 0 ≤ x) (h100 : x ≤ 100) : jsClamp 0 100 x = x := by
  unfold jsClamp
  rw [min_eq_right h100, max_eq_right h0]

theorem evenPos_strictMono {n j k : ℕ} (h1 : 1 < n) (hjk : j < k) :
    evenPos n j < evenPos n k := by
  unfold evenPos
  rw [if_pos h1, if_pos h1]
  have hn1 : (0 : ℚ) < (n : ℚ) - 1 := by
    have : (1 : ℚ) < (n : ℚ) := by exact_mod_cast h1
    linarith
  have hjk' : (j : ℚ) < (k : ℚ) := by exact_mod_cast hjk
  have := (div_lt_div_iff_of_pos_right hn1).mpr hjk'
  nlinarith

theorem mappedStopsFrom_length (i : ℕ) (stops : List GradStop) :
    (mappedStopsFrom i stops).length = stops.length := by
  induction stops generalizing i with
  | nil => rfl
  | cons s rest ih => simp [mappedStopsFrom, ih]

theorem distributeFrom_length (allEq : Bool) (n i : ℕ) (ms : List MappedStop) :
    (distributeFrom allEq n i ms).length = ms.length := by
  induction ms generalizing i with
  | nil => rfl
  | cons s rest ih => simp [distributeFrom, ih]

theorem distributeFrom_true_positions (n : ℕ) (ms : List MappedStop) : ∀ i,
    (distributeFrom true n i ms).map (·.pos)
      = (List.range' i ms.length).map (fun j => jsClamp 0 100 (evenPos n j)) := by
  induction ms with
  | nil => intro i; rfl
  | cons s rest ih =>
    intro i
    simp only [distributeFrom, List.map_cons, List.length_cons, List.range',
      if_true, ih (i + 1)]

theorem distributeFrom_false_positions (n : ℕ) (ms : List MappedStop) : ∀ i,
    (distributeFrom false n i ms).map (·.pos)
      = ms.map (fun s => jsClamp 0 100 s.pos) := by
  induction ms with
  | nil => intro i; rfl
  | cons s rest ih =>
    intro i
    simp only [distributeFrom, List.map_cons, Bool.false_eq_true, if_false, ih (i + 1)]

/-- The normalized positions of a raw stop list, before redistribution
and clamping. -/
def stopPositions (stops : List GradStop) : List ℚ :=
  (mappedStops stops).map (fun s => s.pos)

/-- The evenly redistributed position list the spec prescribes for a
degenerate stop set: `i/(n-1)*100` by index, 0 for a single stop. -/
def evenPositions (n : ℕ) : List ℚ :=
  (List.range n).map (evenPos n)

theorem mappedStops_length (stops : List GradStop) :
    (mappedStops stops).length = stops.length :=
  mappedStopsFrom_length 0 stops

/-- C2 (confirmed): for every non-empty stop list, (i) if all
normalized positions are equal — the all-non-finite degenerate case is
vacuous, since position normalization is total into ℚ — the rendered
stop positions are exactly the even redistribution `i/(n-1)*100`
(0 for a single stop) and are strictly increasing; (ii) otherwise the
rendered positions are a permutation of the clamped-to-`[0,100]`
normalized positions; and (iii) in all cases the rendered stop list is
sorted ascending by position with the original index as tie-break. -/
theorem convertGradientToCss_stops_spec (stops : List GradStop) (hne : stops ≠ []) :
    ((∀ p ∈ stopPositions stops, ∀ q ∈ stopPositions stops, p = q) →
      (finalGradientStops stops).map (fun s => s.pos) = evenPositions stops.length ∧
      ((finalGradientStops stops).map (fun s => s.pos)).Pairwise (· < ·)) ∧
    (¬ (∀ p ∈ stopPositions stops, ∀ q ∈ stopPositions stops, p = q) →
      ((finalGradientStops stops).map (fun s => s.pos)).Perm
        ((stopPositions stops).map (jsClamp 0 100))) ∧
    (finalGradientStops stops).Pairwise stopLE := by
  have hlen : (mappedStops stops).length = stops.length := mappedStops_length stops
  have hmsne : mappedStops stops ≠ [] := by
    intro h
    apply hne
    have := hlen
    rw [h] at this
    exact List.length_eq_zero.mp this.symm
  have hpsne : (mappedStops stops).map (fun s => s.pos) ≠ [] := by
    simpa using hmsne
  refine ⟨?_, ?_, ?_⟩
  · intro hall
    have hminmax : listMinPos ((mappedStops stops).map (fun s => s.pos))
        = listMaxPos ((mappedStops stops).map (fun s => s.pos)) :=
      (minMax_eq_iff_all_eq hpsne).mpr hall
    have hdist : distributedStops stops
        = distributeFrom true (mappedStops stops).length 0 (mappedStops stops) := by
      simp only [distributedStops]
      rw [decide_eq_true hminmax]
    have hposes : (distributedStops stops).map (fun s => s.pos)
        = evenPositions stops.length := by
      rw [hdist, distributeFrom_true_positions]
      rw [evenPositions, ← hlen, List.range_eq_range']
      apply List.map_congr_left
      intro j hj
      have hjlt : j < (mappedStops stops).length := by
        have := List.mem_range'_1.mp hj
        omega
      obtain ⟨h0, h100⟩ := evenPos_bounds (mappedStops stops).length j hjlt
      exact jsClamp_id h0 h100
    have hpairEven : (evenPositions stops.length).Pairwise (· < ·) := by
      rw [evenPositions, ← hlen]
      by_cases h1 : 1 < (mappedStops stops).length
      · exact (List.pairwise_lt_range _).map _
          (fun a b hab => evenPos_strictMono h1 hab)
      · have hone : (mappedStops stops).length = 1 := by
          have hpos : 0 < (mappedStops stops).length := List.length_pos.mpr hmsne
          omega
        rw [hone]
        simp [List.range_succ]
    have hp2 : ((distributedStops stops).map (fun s => s.pos)).Pairwise (· < ·) := by
      rw [hposes]
      exact hpairEven
    have hsorted : (distributedStops stops).Pairwise stopLE :=
      (List.pairwise_map.mp hp2).imp (fun h => Or.inl h)
    have hout : finalGradientStops stops = distributedStops stops := by
      rw [finalGradientStops, sortStops]
      exact List.Sorted.insertionSort_eq hsorted
    refine ⟨?_, ?_⟩
    · rw [hout]
      exact hposes
    · rw [hout, hposes]
      exact hpairEven
  · intro hnall
    have hminmax : listMinPos ((mappedStops stops).map (fun s => s.pos))
        ≠ listMaxPos ((mappedStops stops).map (fun s => s.pos)) := by
      intro h
      exact hnall ((minMax_eq_iff_all_eq hpsne).mp h)
    have hdist : distributedStops stops
        = distributeFrom false (mappedStops stops).length 0 (mappedStops stops) := by
      simp only [distributedStops]
      rw [decide_eq_false hminmax]
    have hposes : (distributedStops stops).map (fun s => s.pos)
        = (stopPositions stops).map (jsClamp 0 100) := by
      rw [hdist, distributeFrom_false_positions, stopPositions, List.map_map]
      rfl
    have hperm : List.Perm (finalGradientStops stops) (distributedStops stops) :=
      List.perm_insertionSort stopLE (distributedStops stops)
    have hm := (hperm.map (fun s => s.pos))
    rw [hposes] at hm
    exact hm
  · exact List.sorted_insertionSort stopLE (distributedStops stops)

/-- Degenerate three-stop list (all locations identical) for the C2
witness. -/
def equalStops : List GradStop :=
  [⟨none, .finite 50⟩, ⟨none, .finite 50⟩, ⟨none, .finite 50⟩]

/-- C2 witness: the stop-pipeline facts at a concrete three-stop list
whose locations are all identical. -/
theorem convertGradientToCss_stops_spec_witness :
    (equalStops ≠ []) ∧
    (((∀ p ∈ stopPositions equalStops, ∀ q ∈ stopPositions equalStops, p = q) →
      (finalGradientStops equalStops).map (fun s => s.pos) = evenPositions equalStops.length ∧
      ((finalGradientStops equalStops).map (fun s => s.pos)).Pairwise (· < ·)) ∧
    (¬ (∀ p ∈ stopPositions equalStops, ∀ q ∈ stopPositions equalStops, p = q) →
      ((finalGradientStops equalStops).map (fun s => s.pos)).Perm
        ((stopPositions equalStops).map (jsClamp 0 100))) ∧
    (finalGradientStops equalStops).Pairwise stopLE) :=
  ⟨by simp [equalStops], convertGradientToCss_stops_spec equalStops (by simp [equalStops])⟩

end Psd2Json
